import Mathlib

/-!
Shallow embedding of the product-crossref reconciliation core
(`src/product.rs` and `src/fixers.rs`), together with theorems settling the
frozen claims about its specification.  File and CSV input is embedded as
already-split rows (`List (List String)`); third-party codec behaviour
(`ean13`, `rust_decimal`, `chrono`, `f64` parsing) is modelled from the spec
where noted, since those crates are not part of this repository's sources.
-/

namespace ProductCrossref

/-- Numeric value of an ASCII digit character. -/
def charVal (c : Char) : Nat := c.toNat - 48

/-- Split a character list on a separator character, mirroring Rust's
`str::split` for a one-character pattern: the empty input yields one empty
token, and separators delimit (possibly empty) tokens. -/
def splitOnChar (sep : Char) : List Char → List (List Char)
  | [] => [[]]
  | c :: rest =>
    if c = sep then [] :: splitOnChar sep rest
    else
      match splitOnChar sep rest with
      | [] => [[c]]
      | g :: gs => (c :: g) :: gs

/-- EAN-13 check digit over a 12-digit payload: digits at odd 1-indexed
positions weigh 1 and even positions weigh 3; the check digit is
`(10 - sum % 10) % 10`. -/
def checkDigit (payload : List Nat) : Nat :=
  let s := (payload.enum.map (fun p => if p.1 % 2 = 0 then p.2 else 3 * p.2)).sum
  (10 - s % 10) % 10

/-- Modelled from the spec: a 13-digit numeric barcode from the external
`ean13` crate (not under `src/`), held as its digit list; two codes are equal
iff their 13-digit forms coincide. -/
structure Ean13 where
  digits : List Nat
deriving DecidableEq

/-- Modelled from the spec: `Ean13::from_str_nonstrict` of the external
`ean13` crate (not under `src/`): on an input of 12 or more digits the check
digit is recomputed from the leading 12 digits regardless of any supplied
digit and substituted, producing a valid 13-digit code; other inputs are
rejected. -/
def Ean13.from_str_nonstrict (s : String) : Option Ean13 :=
  if s.data.all Char.isDigit ∧ 12 ≤ s.data.length then
    some ⟨((s.data.take 12).map charVal) ++ [checkDigit ((s.data.take 12).map charVal)]⟩
  else none

/-- Token handling of the comma-separated barcode field
(src/product.rs lines 196-210): an 11-digit token gets a placeholder digit
appended before non-strict repair, anything shorter is dropped as a dead
code, and tokens of 12 or more digits are repaired directly. -/
def parseUpcToken (s : String) : Option Ean13 :=
  if s.data.length = 11 then Ean13.from_str_nonstrict (s ++ "0")
  else if s.data.length < 11 then none
  else Ean13.from_str_nonstrict s

/-- Canonicalization of the raw barcode field (src/product.rs lines 187-195):
keep only decimal digits and commas. -/
def canonUpcField (s : String) : String :=
  ⟨s.data.filter (fun c => c.isDigit || c == ',')⟩

/-- The barcode list of one item row (src/product.rs lines 196-210): split the
canonicalized field on commas and keep the repairable tokens. -/
def rowUpcs (s : String) : List Ean13 :=
  ((splitOnChar ',' (canonUpcField s).data).map (fun cs => (⟨cs⟩ : String))).filterMap parseUpcToken

/-- Modelled from the spec: an exact base-10 decimal from the external
`rust_decimal` crate (not under `src/`), as an unscaled mantissa with a
decimal scale.  Canonicalized price text carries no sign, so the mantissa is
a natural number. -/
structure Decimal where
  mantissa : Nat
  scale : Nat
deriving DecidableEq

/-- Value of a digit string as a natural number. -/
def digitsVal (ds : List Char) : Nat := ds.foldl (fun acc c => 10 * acc + charVal c) 0

/-- Modelled from the spec: `rust_decimal::Decimal::from_str_exact` (not under
`src/`) on canonicalized price text: digits with at most one decimal point and
at least one digit in total parse exactly; anything else fails. -/
def Decimal.from_str_exact (s : String) : Option Decimal :=
  match splitOnChar '.' s.data with
  | [w] => if w ≠ [] ∧ w.all Char.isDigit then some ⟨digitsVal w, 0⟩ else none
  | [w, f] =>
    if (w ++ f) ≠ [] ∧ (w ++ f).all Char.isDigit then
      some ⟨digitsVal (w ++ f), f.length⟩
    else none
  | _ => none

/-- Canonicalize noisy currency text by keeping only digits and decimal
points, then parse it as an exact decimal (src/product.rs lines 5-11). -/
def price_from_str (price_str : String) : Option Decimal :=
  Decimal.from_str_exact ⟨price_str.data.filter (fun c => c.isDigit || c == '.')⟩

/-- Modelled from the spec: parsing a floating quantity (Rust `f64` parsing,
not under `src/`) for the stock and weight fields, on plain decimal numerals,
as an exact rational. -/
def f64_from_str (s : String) : Option ℚ :=
  match splitOnChar '.' s.data with
  | [w] => if w ≠ [] ∧ w.all Char.isDigit then some (digitsVal w) else none
  | [w, f] =>
    if w ≠ [] ∧ f ≠ [] ∧ w.all Char.isDigit ∧ f.all Char.isDigit then
      some ((digitsVal w : ℚ) + (digitsVal f : ℚ) / (10 : ℚ) ^ f.length)
    else none
  | _ => none

/-- Modelled from the spec: a calendar date as parsed by the external
`chrono` crate (not under `src/`) for format YYYY-MM-DD. -/
structure NaiveDate where
  year : Nat
  month : Nat
  day : Nat
deriving DecidableEq

/-- Days in a calendar month, with Gregorian leap years. -/
def daysInMonth (y m : Nat) : Nat :=
  if m = 2 then (if (y % 4 = 0 ∧ y % 100 ≠ 0) ∨ y % 400 = 0 then 29 else 28)
  else if m = 4 ∨ m = 6 ∨ m = 9 ∨ m = 11 then 30 else 31

/-- Modelled from the spec: `chrono::NaiveDate::parse_from_str` with format
`%Y-%m-%d` (not under `src/`): a four-digit year and numeric month and day
forming a valid calendar date; anything else fails. -/
def date_from_str (s : String) : Option NaiveDate :=
  match splitOnChar '-' s.data with
  | [y, m, d] =>
    if y.length = 4 ∧ y.all Char.isDigit ∧ m ≠ [] ∧ m.all Char.isDigit
        ∧ d ≠ [] ∧ d.all Char.isDigit then
      if 1 ≤ digitsVal m ∧ digitsVal m ≤ 12
          ∧ 1 ≤ digitsVal d ∧ digitsVal d ≤ daysInMonth (digitsVal y) (digitsVal m) then
        some ⟨digitsVal y, digitsVal m, digitsVal d⟩
      else none
    else none
  | _ => none

/-- ASCII upper-casing of a character, modelling Rust `str::to_uppercase` on
the ASCII skus that ingestion handles. -/
def charUpper (c : Char) : Char :=
  if 'a' ≤ c ∧ c ≤ 'z' then Char.ofNat (c.toNat - 32) else c

/-- ASCII upper-casing of a string. -/
def strUpper (s : String) : String := ⟨s.data.map charUpper⟩

/-- The canonical catalog record (src/product.rs lines 13-23).  The `f64`
quantities are modelled as exact rationals. -/
structure AbcProduct where
  sku : String
  desc : String
  upcs : List Ean13
  list : Decimal
  cost : Decimal
  stock : ℚ
  weight : ℚ
  last_sold : Option NaiveDate
deriving DecidableEq

/-- A vendor-exported product (src/product.rs lines 345-353). -/
structure ExportedProduct where
  sku : String
  upc : Ean13
  desc : String
  weight : Option ℚ
  cost : Decimal
  retail : Option Decimal
deriving DecidableEq

/-- Ingestion error type (src/product.rs lines 319-324); CSV-reader errors do
not arise in the row-level embedding. -/
inductive AbcParseError where
  | MissingField : String → Nat → AbcParseError
  | Custom : String → AbcParseError
deriving DecidableEq

/-- The catalog map keyed by sku, as an association list standing for the
source's `HashMap<String, AbcProduct>`. -/
abbrev SkuMap := List (String × AbcProduct)

/-- Lookup in the catalog map. -/
def mapLookup (m : SkuMap) (k : String) : Option AbcProduct :=
  match m with
  | [] => none
  | (k2, v) :: rest => if k2 = k then some v else mapLookup rest k

/-- Insertion into the catalog map, replacing any existing entry for the key. -/
def mapInsert (m : SkuMap) (k : String) (v : AbcProduct) : SkuMap :=
  match m with
  | [] => [(k, v)]
  | (k2, v2) :: rest => if k2 = k then (k, v) :: rest else (k2, v2) :: mapInsert rest k v

/-- Process one row of the item file (src/product.rs lines 170-252): fetch and
parse the fields in source order, each failure yielding the source's error
message with the 1-indexed row number `i`, and build the catalog record with
stock 0 and no last-sold date. -/
def parseItemRow (i : Nat) (row : List String) : Except AbcParseError AbcProduct :=
  match row.get? 0 with
  | none => .error (.Custom ("Cannot deserialize sku in row " ++ toString i))
  | some sku =>
  match row.get? 1 with
  | none => .error (.Custom ("Cannot deserialize desc in row " ++ toString i))
  | some desc =>
  match row.get? 43 with
  | none => .error (.Custom ("Cannot fetch upcs in row " ++ toString i))
  | some upcField =>
  match row.get? 6 with
  | none => .error (.Custom ("Cannot fetch list price from row " ++ toString i))
  | some listStr =>
  match price_from_str listStr with
  | none => .error (.Custom ("Cannot parse a price in cents for list in row " ++ toString i))
  | some list =>
  match row.get? 8 with
  | none => .error (.Custom ("Cannot fetch cost from row " ++ toString i))
  | some costStr =>
  match price_from_str costStr with
  | none => .error (.Custom ("Cannot parse a price in cents for cost in row " ++ toString i))
  | some cost =>
  match row.get? 45 with
  | none => .error (.Custom ("Cannot fetch weight from row " ++ toString i))
  | some weightStr =>
  match f64_from_str weightStr with
  | none => .error (.Custom ("Failed to parse f64 from weight in row " ++ toString i))
  | some weight =>
    .ok { sku := sku, desc := desc, upcs := rowUpcs upcField, list := list,
          cost := cost, stock := 0, weight := weight, last_sold := none }

/-- The item-file loop (src/product.rs lines 168-252): rows are processed in
order with 1-indexed numbering, each product inserted under its sku; the
first error aborts the loop. -/
def processItemRows : List (List String) → Nat → SkuMap → Except AbcParseError SkuMap
  | [], _, m => .ok m
  | row :: rest, i, m =>
    match parseItemRow (i + 1) row with
    | .error e => .error e
    | .ok p => processItemRows rest (i + 1) (mapInsert m p.sku p)

/-- Process one row of the posted file against the catalog built so far
(src/product.rs lines 255-295): fetch sku, stock and last-sold fields, look
the sku up in the catalog, and overwrite the record's stock, upper-case its
sku and overwrite its last-sold date before re-inserting it. -/
def parsePostedRow (i : Nat) (row : List String) (products : SkuMap) :
    Except AbcParseError SkuMap :=
  match row.get? 0 with
  | none => .error (.Custom ("Cannot deserialize sku in row " ++ toString i ++ " of posted items"))
  | some sku =>
  match row.get? 19 with
  | none => .error (.Custom ("Cannot deserialize stock in row " ++ toString i ++ " of posted items"))
  | some stockStr =>
  match f64_from_str stockStr with
  | none => .error (.Custom ("Cannot parse f64 from stock_str in row " ++ toString i ++ " of posted items"))
  | some stock =>
  match row.get? 1 with
  | none => .error (.Custom ("Cannot deserialize last_sold in row " ++ toString i ++ " of posted items"))
  | some lastSoldStr =>
  match mapLookup products sku with
  | none => .error (.Custom ("Cannot find existing product for item with sku " ++ sku ++ " in row " ++ toString i ++ " of posted_data"))
  | some existing =>
    .ok (mapInsert products sku
      { existing with stock := stock, sku := strUpper existing.sku,
                      last_sold := date_from_str lastSoldStr })

/-- The posted-file loop (src/product.rs lines 254-295): rows are processed
in order with 1-indexed numbering; the first error aborts the loop. -/
def processPostedRows : List (List String) → Nat → SkuMap → Except AbcParseError SkuMap
  | [], _, m => .ok m
  | row :: rest, i, m =>
    match parsePostedRow (i + 1) row m with
    | .error e => .error e
    | .ok m2 => processPostedRows rest (i + 1) m2

/-- The ingestion entry point (src/product.rs lines 155-297) over already
split tab-separated rows: the item loop builds the catalog map, then the
posted loop merges stock and last-sold data by sku. -/
def parse_abc_item_files (itemRows postedRows : List (List String)) :
    Except AbcParseError SkuMap :=
  match processItemRows itemRows 0 [] with
  | .error e => .error e
  | .ok m => processPostedRows postedRows 0 m

/-- An ordered group of catalog products sharing one barcode
(src/product.rs line 299). -/
abbrev DuplicateProducts := List AbcProduct

/-- The barcode index, as an association list standing for the source's
`HashMap<Ean13, (DuplicateProducts, AbcProduct)>`. -/
abbrev UpcMap := List (Ean13 × (DuplicateProducts × AbcProduct))

/-- Lookup in the barcode index. -/
def upcLookup (m : UpcMap) (k : Ean13) : Option (DuplicateProducts × AbcProduct) :=
  match m with
  | [] => none
  | (k2, v) :: rest => if k2 = k then some v else upcLookup rest k

/-- Insertion into the barcode index, replacing any existing entry for the
key. -/
def upcInsert (m : UpcMap) (k : Ean13) (v : DuplicateProducts × AbcProduct) : UpcMap :=
  match m with
  | [] => [(k, v)]
  | (k2, v2) :: rest => if k2 = k then (k, v) :: rest else (k2, v2) :: upcInsert rest k v

/-- One insertion step of `map_upcs` (src/product.rs lines 307-313): insert
the incoming product with an empty duplicate list, recovering any previous
entry; when an entry was already present, append the incoming product and the
previously stored product to its duplicate list and re-insert with the
previously stored product as the entry's representative. -/
def map_upcs_insert (m : UpcMap) (upc : Ean13) (product : AbcProduct) : UpcMap :=
  let old := upcLookup m upc
  let m2 := upcInsert m upc ([], product)
  match old with
  | none => m2
  | some (dup, prod) => upcInsert m2 upc (dup ++ [product, prod], prod)

/-- Build the barcode index (src/product.rs lines 301-317) from an iteration
order of the catalog map: for every product, insert each of its barcodes. -/
def map_upcs (existing_map : List (String × AbcProduct)) : UpcMap :=
  existing_map.foldl
    (fun m e => e.2.upcs.foldl (fun m2 upc => map_upcs_insert m2 upc e.2) m) []

/-- The flattened insertion events of `map_upcs`: each barcode of each
product, in scan order. -/
def upcEvents (catalog : List (String × AbcProduct)) : List (Ean13 × AbcProduct) :=
  catalog.flatMap (fun e => e.2.upcs.map (fun u => (u, e.2)))

/-- The products inserting a given barcode, in order and with multiplicity. -/
def eventsAt (b : Ean13) (evs : List (Ean13 × AbcProduct)) : List AbcProduct :=
  evs.filterMap (fun ev => if ev.1 = b then some ev.2 else none)

/-- The insertion sequence for a barcode over a whole catalog scan. -/
def insertsOf (b : Ean13) (catalog : List (String × AbcProduct)) : List AbcProduct :=
  eventsAt b (upcEvents catalog)

/-- Replay of `map_upcs_insert` on one barcode's entry for a sequence of
inserting products. -/
def insertRun : Option (DuplicateProducts × AbcProduct) → List AbcProduct →
    Option (DuplicateProducts × AbcProduct)
  | st, [] => st
  | none, p :: rest => insertRun (some ([], p)) rest
  | some (dup, prod), p :: rest => insertRun (some (dup ++ [p, prod], prod)) rest

/-- The DuplicateGroup stored for a barcode by `map_upcs`, empty when the
barcode has no entry. -/
def dupGroupAt (catalog : List (String × AbcProduct)) (b : Ean13) : DuplicateProducts :=
  ((upcLookup (map_upcs catalog) b).map Prod.fst).getD []

/-- An operation issued against the inventory edit port's barcode list:
`clear_upc` or `set_upc` of one code (src/fixers.rs lines 29-35). -/
inductive UpcOp where
  | clear : UpcOp
  | add : Ean13 → UpcOp
deriving DecidableEq

/-- One fallible port call: when the run is still live and the oracle accepts
the operation given the trace so far, the operation is appended to the trace;
otherwise the run is marked failed, and a failed run ignores further calls
(Rust's `?` operator aborts the remaining sequence). -/
def attemptOp (canDo : List UpcOp → UpcOp → Bool) (st : List UpcOp × Bool) (op : UpcOp) :
    List UpcOp × Bool :=
  match st with
  | (tr, false) => (tr, false)
  | (tr, true) => if canDo tr op then (tr ++ [op], true) else (tr, false)

/-- The barcode fix-up sequence (src/fixers.rs lines 24-37): clear all
existing barcodes, re-add every original barcode different from the vendor's,
then add the vendor's barcode last.  Returns the operations issued and
whether every port call succeeded. -/
def fix_upc (canDo : List UpcOp → UpcOp → Bool) (abc_prod : AbcProduct)
    (ex_prod : ExportedProduct) : List UpcOp × Bool :=
  attemptOp canDo
    (abc_prod.upcs.foldl
      (fun st upc => if upc ≠ ex_prod.upc then attemptOp canDo st (.add upc) else st)
      (attemptOp canDo ([], true) .clear))
    (.add ex_prod.upc)

/-- The inventory screen's text-box state for the alternate-sku fix-up: the
current text of each field index, and whether reading or writing that field
succeeds. -/
structure AltSkuPort where
  fields : Nat → String
  readOk : Nat → Bool
  writeOk : Nat → Bool

/-- The loop of `fix_alt_sku` over the remaining field indices
(src/fixers.rs lines 129-135): read each slot in turn; on the first slot
whose text is empty, write the vendor sku and break.  Returns the writes
performed and whether the run succeeded. -/
def altSkuLoop (port : AltSkuPort) (sku : String) : List Nat → List (Nat × String) × Bool
  | [] => ([], true)
  | i :: rest =>
    if port.readOk i then
      if port.fields i = "" then
        if port.writeOk i then ([(i, sku)], true) else ([], false)
      else altSkuLoop port sku rest
    else ([], false)

/-- The alternate-sku fix-up (src/fixers.rs lines 124-137): try the three
alternate-sku slots 35, 36 and 37 in order. -/
def fix_alt_sku (port : AltSkuPort) (ex_prod : ExportedProduct) :
    List (Nat × String) × Bool :=
  altSkuLoop port ex_prod.sku [35, 36, 37]

theorem upcLookup_upcInsert_self (m : UpcMap) (k : Ean13)
    (v : DuplicateProducts × AbcProduct) :
    upcLookup (upcInsert m k v) k = some v := by
  induction m with
  | nil => simp [upcInsert, upcLookup]
  | cons e rest ih =>
    obtain ⟨k2, v2⟩ := e
    by_cases h : k2 = k
    · simp [upcInsert, upcLookup, h]
    · simp [upcInsert, upcLookup, h, ih]

theorem upcLookup_upcInsert_ne (m : UpcMap) (k k2 : Ean13)
    (v : DuplicateProducts × AbcProduct) (h : k2 ≠ k) :
    upcLookup (upcInsert m k v) k2 = upcLookup m k2 := by
  induction m with
  | nil => simp [upcInsert, upcLookup, Ne.symm h]
  | cons e rest ih =>
    obtain ⟨k3, v3⟩ := e
    by_cases h3 : k3 = k
    · subst h3
      simp only [upcInsert, if_pos rfl, upcLookup, if_neg (Ne.symm h)]
    · simp only [upcInsert, if_neg h3, upcLookup]
      by_cases h4 : k3 = k2 <;> simp [h4, ih]

theorem upcLookup_map_upcs_insert (m : UpcMap) (u : Ean13) (p : AbcProduct) (b : Ean13) :
    upcLookup (map_upcs_insert m u p) b =
      if b = u then
        match upcLookup m u with
        | none => some ([], p)
        | some dp => some (dp.1 ++ [p, dp.2], dp.2)
      else upcLookup m b := by
  by_cases hb : b = u
  · subst hb
    cases h : upcLookup m b with
    | none => simp [map_upcs_insert, h, upcLookup_upcInsert_self]
    | some dp =>
      obtain ⟨dup, prod⟩ := dp
      simp [map_upcs_insert, h, upcLookup_upcInsert_self]
  · cases h : upcLookup m u with
    | none => simp [map_upcs_insert, h, hb, upcLookup_upcInsert_ne _ _ _ _ hb]
    | some dp =>
      obtain ⟨dup, prod⟩ := dp
      simp [map_upcs_insert, h, hb, upcLookup_upcInsert_ne _ _ _ _ hb]

theorem foldl_events_upcLookup (evs : List (Ean13 × AbcProduct)) (m : UpcMap) (b : Ean13) :
    upcLookup (evs.foldl (fun acc ev => map_upcs_insert acc ev.1 ev.2) m) b
      = insertRun (upcLookup m b) (eventsAt b evs) := by
  induction evs generalizing m with
  | nil => simp [eventsAt, insertRun]
  | cons ev rest ih =>
    obtain ⟨u, p⟩ := ev
    rw [List.foldl_cons, ih, upcLookup_map_upcs_insert]
    by_cases hb : b = u
    · subst hb
      simp only [if_pos rfl, eventsAt, List.filterMap_cons, if_pos rfl]
      cases h : upcLookup m b with
      | none => simp [insertRun]
      | some dp =>
        obtain ⟨dup, prod⟩ := dp
        simp [insertRun]
    · have hub : ¬(u = b) := fun h2 => hb h2.symm
      simp only [if_neg hb, eventsAt, List.filterMap_cons, if_neg hub]

theorem map_upcs_eq_foldl (catalog : List (String × AbcProduct)) (m : UpcMap) :
    catalog.foldl (fun m2 e => e.2.upcs.foldl (fun m3 upc => map_upcs_insert m3 upc e.2) m2) m
      = (upcEvents catalog).foldl (fun acc ev => map_upcs_insert acc ev.1 ev.2) m := by
  induction catalog generalizing m with
  | nil => simp [upcEvents]
  | cons e rest ih =>
    rw [List.foldl_cons, ih]
    have hev : upcEvents (e :: rest)
        = (e.2.upcs.map (fun u => (u, e.2))) ++ upcEvents rest := by
      simp [upcEvents]
    rw [hev, List.foldl_append, List.foldl_map]

theorem map_upcs_upcLookup (catalog : List (String × AbcProduct)) (b : Ean13) :
    upcLookup (map_upcs catalog) b = insertRun none (insertsOf b catalog) := by
  unfold map_upcs insertsOf
  rw [map_upcs_eq_foldl, foldl_events_upcLookup]
  rfl

theorem insertRun_some (l : List AbcProduct) (dup : DuplicateProducts) (prod : AbcProduct) :
    insertRun (some (dup, prod)) l
      = some (dup ++ l.flatMap (fun q => [q, prod]), prod) := by
  induction l generalizing dup with
  | nil => simp [insertRun]
  | cons p rest ih => simp [insertRun, ih]

theorem upcLookup_map_upcs_closed (catalog : List (String × AbcProduct)) (b : Ean13) :
    upcLookup (map_upcs catalog) b =
      match insertsOf b catalog with
      | [] => none
      | p :: rest => some (rest.flatMap (fun q => [q, p]), p) := by
  rw [map_upcs_upcLookup]
  cases h : insertsOf b catalog with
  | nil => rfl
  | cons p rest =>
    rw [show insertRun none (p :: rest) = insertRun (some ([], p)) rest from rfl,
      insertRun_some]
    simp

theorem mem_insertsOf (catalog : List (String × AbcProduct)) (b : Ean13) (s : String)
    (A : AbcProduct) (hmem : (s, A) ∈ catalog) (hb : b ∈ A.upcs) :
    A ∈ insertsOf b catalog := by
  unfold insertsOf eventsAt upcEvents
  rw [List.mem_filterMap]
  refine ⟨(b, A), ?_, by simp⟩
  rw [List.mem_flatMap]
  refine ⟨(s, A), hmem, ?_⟩
  rw [List.mem_map]
  exact ⟨b, hb, rfl⟩

theorem mem_dupGroupAt_of_two (catalog : List (String × AbcProduct)) (b : Ean13)
    (x y : AbcProduct) (hx : x ∈ insertsOf b catalog) (hy : y ∈ insertsOf b catalog)
    (hne : x ≠ y) : x ∈ dupGroupAt catalog b := by
  unfold dupGroupAt
  rw [upcLookup_map_upcs_closed]
  cases h : insertsOf b catalog with
  | nil => rw [h] at hx; cases hx
  | cons p rest =>
    rw [h] at hx hy
    show x ∈ rest.flatMap fun q => [q, p]
    rw [List.mem_flatMap]
    rcases List.mem_cons.mp hx with hxp | hxr
    · rcases List.mem_cons.mp hy with hyp | hyr
      · exact absurd (hxp.trans hyp.symm) hne
      · exact ⟨y, hyr, by simp [hxp]⟩
    · exact ⟨x, hxr, by simp⟩

/-- A sample 13-digit code used by concrete instances. -/
def ean0 : Ean13 := ⟨[0, 1, 2, 3, 4, 5, 6, 7, 8, 9, 0, 1, 2]⟩

/-- A second sample code, distinct from `ean0`. -/
def ean1 : Ean13 := ⟨[5, 0, 1, 2, 3, 4, 5, 6, 7, 8, 9, 0, 1]⟩

/-- A sample decimal price. -/
def decA : Decimal := ⟨1200, 2⟩

/-- A sample catalog product with sku `A` carrying `ean0`. -/
def prodA : AbcProduct :=
  { sku := "A", desc := "widget a", upcs := [ean0], list := decA, cost := decA,
    stock := 0, weight := 1, last_sold := none }

/-- A sample catalog product with sku `B` carrying `ean0`. -/
def prodB : AbcProduct :=
  { sku := "B", desc := "widget b", upcs := [ean0], list := decA, cost := decA,
    stock := 0, weight := 1, last_sold := none }

/-- A sample catalog product listing the same barcode twice. -/
def prodDouble : AbcProduct :=
  { sku := "A", desc := "doubled", upcs := [ean0, ean0], list := decA, cost := decA,
    stock := 0, weight := 1, last_sold := none }

/-- C1: refuted as stated.  Scanning the catalog entries `("A", prodA)` then
`("B", prodB)`, both carrying `ean0`, the most recently inserted product for
`ean0` is `prodB`, yet the stored representative is `prodA`: on a collision
the previously stored product is kept, not the incoming one. -/
theorem C1_counterexample :
    (upcLookup (map_upcs [("A", prodA), ("B", prodB)]) ean0).map Prod.snd = some prodA
      ∧ prodA ≠ prodB := by
  decide

/-- C1 (amended): for every catalog scan order and barcode, the
representative stored by `map_upcs` is the first product inserted for that
barcode; a colliding insertion leaves the stored representative in place. -/
theorem C1_amended_representative_is_first (catalog : List (String × AbcProduct))
    (b : Ean13) :
    (upcLookup (map_upcs catalog) b).map Prod.snd = (insertsOf b catalog).head? := by
  rw [upcLookup_map_upcs_closed]
  cases insertsOf b catalog <;> rfl

/-- C2: refuted as stated.  A catalog holding the single product `prodDouble`,
which lists `ean0` twice, yields a non-empty DuplicateGroup `[prodDouble,
prodDouble]` for `ean0`, although no two catalog products with different SKUs
carry that barcode: `map_upcs` records a duplicate on every collision, with
no SKU comparison. -/
theorem C2_counterexample :
    (upcLookup (map_upcs [("A", prodDouble)]) ean0).map Prod.fst
        = some [prodDouble, prodDouble]
      ∧ (∀ e1 ∈ [("A", prodDouble)], ∀ e2 ∈ [("A", prodDouble)], e1.2.sku = e2.2.sku) := by
  decide

/-- C2 (amended): a barcode's DuplicateGroup built by `map_upcs` is non-empty
exactly when that barcode is inserted at least twice during the scan,
counting multiplicity across all products' barcode lists and regardless of
the carrying products' SKUs. -/
theorem C2_amended_dup_nonempty_iff_two_insertions
    (catalog : List (String × AbcProduct)) (b : Ean13) :
    dupGroupAt catalog b ≠ [] ↔ 2 ≤ (insertsOf b catalog).length := by
  unfold dupGroupAt
  rw [upcLookup_map_upcs_closed]
  cases h : insertsOf b catalog with
  | nil => simp
  | cons p rest =>
    cases rest with
    | nil => simp
    | cons q rest2 => simp

/-- C3: confirmed.  For every catalog containing two products `A` and `B`
with different SKUs that share a barcode, the DuplicateGroup stored under
that barcode by `map_upcs` contains both `A` and `B`, whatever the scan
order. -/
theorem C3_duplicate_detection_symmetric (catalog : List (String × AbcProduct))
    (b : Ean13) (sA sB : String) (A B : AbcProduct)
    (hA : (sA, A) ∈ catalog) (hB : (sB, B) ∈ catalog) (hsku : A.sku ≠ B.sku)
    (hbA : b ∈ A.upcs) (hbB : b ∈ B.upcs) :
    A ∈ dupGroupAt catalog b ∧ B ∈ dupGroupAt catalog b := by
  have hne : A ≠ B := fun h => hsku (by rw [h])
  exact ⟨mem_dupGroupAt_of_two _ _ _ _ (mem_insertsOf _ _ _ _ hA hbA)
      (mem_insertsOf _ _ _ _ hB hbB) hne,
    mem_dupGroupAt_of_two _ _ _ _ (mem_insertsOf _ _ _ _ hB hbB)
      (mem_insertsOf _ _ _ _ hA hbA) (Ne.symm hne)⟩

/-- Witness for C3 at a concrete two-product catalog sharing `ean0`. -/
theorem C3_witness :
    prodA ∈ dupGroupAt [("A", prodA), ("B", prodB)] ean0 ∧
    prodB ∈ dupGroupAt [("A", prodA), ("B", prodB)] ean0 :=
  C3_duplicate_detection_symmetric [("A", prodA), ("B", prodB)] ean0 "A" "B" prodA prodB
    (by decide) (by decide) (by decide) (by decide) (by decide)

theorem from_str_nonstrict_digits (s : String) (hs : s.data.all Char.isDigit)
    (hlen : 12 ≤ s.data.length) :
    Ean13.from_str_nonstrict s
      = some ⟨((s.data.take 12).map charVal) ++ [checkDigit ((s.data.take 12).map charVal)]⟩ := by
  unfold Ean13.from_str_nonstrict
  rw [if_pos ⟨hs, hlen⟩]

theorem parseItemRow_ok_upcs (i : Nat) (row : List String) (s : String) (p : AbcProduct)
    (h43 : row.get? 43 = some s) (hok : parseItemRow i row = .ok p) :
    p.upcs = rowUpcs s := by
  unfold parseItemRow at hok
  rw [h43] at hok
  repeat' split at hok
  all_goals cases hok
  simp_all

/-- C4: confirmed.  For every comma-separated barcode token of an item row:
a token with fewer than 11 digits contributes no barcode, a token with
exactly 11 digits has a placeholder digit appended and its checksum
recomputed over the resulting 12-digit payload, producing a 13-digit code, a
token with 12 or more digits is repaired non-strictly, and the record's
barcode list keeps exactly the repairable tokens, so an unrepairable token is
dropped without any ingestion error. -/
theorem C4_barcode_token_repair (t s : String) (i : Nat) (row : List String)
    (p : AbcProduct) (ht : t.data.all Char.isDigit) :
    (t.data.length < 11 → parseUpcToken t = none) ∧
    (t.data.length = 11 →
      parseUpcToken t
          = some ⟨(t.data.map charVal) ++ [0, checkDigit ((t.data.map charVal) ++ [0])]⟩
        ∧ ((t.data.map charVal) ++ [0, checkDigit ((t.data.map charVal) ++ [0])]).length = 13) ∧
    (12 ≤ t.data.length → parseUpcToken t = Ean13.from_str_nonstrict t) ∧
    (rowUpcs s = ((splitOnChar ',' (canonUpcField s).data).map
        (fun cs => (⟨cs⟩ : String))).filterMap parseUpcToken) ∧
    (row.get? 43 = some s → parseItemRow i row = .ok p → p.upcs = rowUpcs s) := by
  refine ⟨?_, ?_, ?_, rfl, fun h43 hok => parseItemRow_ok_upcs i row s p h43 hok⟩
  · intro h
    have h2 : t.length < 11 := h
    have h11 : ¬ t.length = 11 := by omega
    simp [parseUpcToken, h11, h2]
  · intro h11
    have hd : (t ++ "0").data = t.data ++ ['0'] := by cases t; rfl
    have hall : ((t ++ "0").data).all Char.isDigit := by
      rw [hd, List.all_append]
      simp [ht]
    have hlen : 12 ≤ (t ++ "0").data.length := by rw [hd]; simp [h11]
    have htake : (t ++ "0").data.take 12 = t.data ++ ['0'] := by
      rw [hd]
      have hl2 : (t.data ++ ['0']).length = 12 := by simp [h11]
      rw [← hl2, List.take_length]
    have hmap : ((t ++ "0").data.take 12).map charVal = t.data.map charVal ++ [0] := by
      rw [htake, List.map_append]
      rfl
    constructor
    · have hstep : parseUpcToken t = Ean13.from_str_nonstrict (t ++ "0") := by
        have h11len : t.length = 11 := h11
        simp [parseUpcToken, h11len]
      rw [hstep, from_str_nonstrict_digits _ hall hlen, hmap]
      simp
    · simp [h11]
  · intro h12
    have h12len : 12 ≤ t.length := h12
    have hne : ¬ t.length = 11 := by omega
    have hnl : ¬ t.length < 11 := by omega
    simp [parseUpcToken, hne, hnl]

/-- Witness for C4 at the 11-digit token `01234567890` inside a full item
row; the codec appends the placeholder and the recomputed check digit 5. -/
theorem C4_witness :
    ("01234567890".data.all Char.isDigit
      ∧ ("01234567890".data.length < 11 → parseUpcToken "01234567890" = none))
    ∧ ("01234567890".data.length = 11 →
        parseUpcToken "01234567890"
            = some ⟨("01234567890".data.map charVal)
                ++ [0, checkDigit (("01234567890".data.map charVal) ++ [0])]⟩
          ∧ (("01234567890".data.map charVal)
                ++ [0, checkDigit (("01234567890".data.map charVal) ++ [0])]).length = 13)
    ∧ (12 ≤ "01234567890".data.length →
        parseUpcToken "01234567890" = Ean13.from_str_nonstrict "01234567890")
    ∧ (rowUpcs "01234567890" = ((splitOnChar ',' (canonUpcField "01234567890").data).map
        (fun cs => (⟨cs⟩ : String))).filterMap parseUpcToken)
    ∧ (["SKU1", "Widget", "", "", "", "", "12.00", "", "8.00"].get? 43 = some "01234567890" →
        parseItemRow 1 ["SKU1", "Widget", "", "", "", "", "12.00", "", "8.00"] = .ok prodA →
        prodA.upcs = rowUpcs "01234567890") := by
  have h := C4_barcode_token_repair "01234567890" "01234567890" 1
    ["SKU1", "Widget", "", "", "", "", "12.00", "", "8.00"] prodA (by decide)
  exact ⟨⟨by decide, h.1⟩, h.2.1, h.2.2.1, h.2.2.2.1, h.2.2.2.2⟩

theorem processItemRows_cons (row : List String) (rest : List (List String))
    (i : Nat) (m : SkuMap) :
    processItemRows (row :: rest) i m =
      match parseItemRow (i + 1) row with
      | .error e => .error e
      | .ok p => processItemRows rest (i + 1) (mapInsert m p.sku p) := rfl

theorem processPostedRows_cons (row : List String) (rest : List (List String))
    (i : Nat) (m : SkuMap) :
    processPostedRows (row :: rest) i m =
      match parsePostedRow (i + 1) row m with
      | .error e => .error e
      | .ok m2 => processPostedRows rest (i + 1) m2 := rfl

theorem processItemRows_append (xs ys : List (List String)) (i : Nat) (m : SkuMap) :
    processItemRows (xs ++ ys) i m =
      match processItemRows xs i m with
      | .error e => .error e
      | .ok m2 => processItemRows ys (i + xs.length) m2 := by
  induction xs generalizing i m with
  | nil => simp [processItemRows]
  | cons row rest ih =>
    rw [List.cons_append, processItemRows_cons, processItemRows_cons]
    cases parseItemRow (i + 1) row with
    | error e => rfl
    | ok p =>
      dsimp only
      rw [ih]
      have harith : i + 1 + rest.length = i + (row :: rest).length := by
        rw [List.length_cons]
        omega
      rw [harith]

theorem processPostedRows_append (xs ys : List (List String)) (i : Nat) (m : SkuMap) :
    processPostedRows (xs ++ ys) i m =
      match processPostedRows xs i m with
      | .error e => .error e
      | .ok m2 => processPostedRows ys (i + xs.length) m2 := by
  induction xs generalizing i m with
  | nil => simp [processPostedRows]
  | cons row rest ih =>
    rw [List.cons_append, processPostedRows_cons, processPostedRows_cons]
    cases parsePostedRow (i + 1) row m with
    | error e => rfl
    | ok m2 =>
      dsimp only
      rw [ih]
      have harith : i + 1 + rest.length = i + (row :: rest).length := by
        rw [List.length_cons]
        omega
      rw [harith]

theorem parseItemRow_list_price_error (i : Nat) (row : List String)
    (sku desc uf listStr : String)
    (h0 : row.get? 0 = some sku) (h1 : row.get? 1 = some desc)
    (h43 : row.get? 43 = some uf) (h6 : row.get? 6 = some listStr)
    (hfail : price_from_str listStr = none) :
    parseItemRow i row
      = .error (.Custom ("Cannot parse a price in cents for list in row " ++ toString i)) := by
  unfold parseItemRow
  simp only [h0, h1, h43, h6, hfail]

theorem parseItemRow_cost_price_error (i : Nat) (row : List String)
    (sku desc uf listStr costStr : String) (d : Decimal)
    (h0 : row.get? 0 = some sku) (h1 : row.get? 1 = some desc)
    (h43 : row.get? 43 = some uf) (h6 : row.get? 6 = some listStr)
    (hlist : price_from_str listStr = some d)
    (h8 : row.get? 8 = some costStr) (hfail : price_from_str costStr = none) :
    parseItemRow i row
      = .error (.Custom ("Cannot parse a price in cents for cost in row " ++ toString i)) := by
  unfold parseItemRow
  simp only [h0, h1, h43, h6, hlist, h8, hfail]

theorem parse_abc_item_files_item_error (pre rest posted : List (List String))
    (row : List String) (m1 : SkuMap) (e : AbcParseError)
    (hpre : processItemRows pre 0 [] = .ok m1)
    (hrow : parseItemRow (pre.length + 1) row = .error e) :
    parse_abc_item_files (pre ++ row :: rest) posted = .error e := by
  unfold parse_abc_item_files
  rw [processItemRows_append, hpre]
  dsimp only
  rw [Nat.zero_add, processItemRows_cons, hrow]

/-- C5: confirmed.  The list-price and cost fields are canonicalized by
dropping every character that is not a digit or a decimal point and parsed as
exact decimals; when the list price (or, the list price parsing, the cost) of
a row fails to parse, `parse_abc_item_files` stops with an error naming the
field and the 1-indexed row, and produces no catalog. -/
theorem C5_price_parse_abort (pre rest posted : List (List String))
    (row : List String) (m1 : SkuMap)
    (sku desc uf listStr costStr : String) (d : Decimal)
    (hpre : processItemRows pre 0 [] = .ok m1)
    (h0 : row.get? 0 = some sku) (h1 : row.get? 1 = some desc)
    (h43 : row.get? 43 = some uf) (h6 : row.get? 6 = some listStr) :
    (price_from_str listStr
        = Decimal.from_str_exact ⟨listStr.data.filter (fun c => c.isDigit || c == '.')⟩) ∧
    (price_from_str listStr = none →
      parse_abc_item_files (pre ++ row :: rest) posted
        = .error (.Custom ("Cannot parse a price in cents for list in row "
            ++ toString (pre.length + 1)))) ∧
    (price_from_str listStr = some d → row.get? 8 = some costStr →
      price_from_str costStr = none →
      parse_abc_item_files (pre ++ row :: rest) posted
        = .error (.Custom ("Cannot parse a price in cents for cost in row "
            ++ toString (pre.length + 1)))) := by
  refine ⟨rfl, ?_, ?_⟩
  · intro hfail
    exact parse_abc_item_files_item_error pre rest posted row m1 _ hpre
      (parseItemRow_list_price_error _ row sku desc uf listStr h0 h1 h43 h6 hfail)
  · intro hlist h8 hfail
    exact parse_abc_item_files_item_error pre rest posted row m1 _ hpre
      (parseItemRow_cost_price_error _ row sku desc uf listStr costStr d
        h0 h1 h43 h6 hlist h8 hfail)

/-- A sample item row whose list-price field holds no digits at all. -/
def c5row : List String :=
  ["S", "D", "", "", "", "", "abc"] ++ List.replicate 37 ""

/-- Witness for C5 at a one-row item file whose list price `abc`
canonicalizes to the empty string and fails the exact-decimal parse. -/
theorem C5_witness :
    (price_from_str "abc"
        = Decimal.from_str_exact ⟨"abc".data.filter (fun c => c.isDigit || c == '.')⟩) ∧
    (price_from_str "abc" = none →
      parse_abc_item_files ([] ++ c5row :: []) []
        = .error (.Custom ("Cannot parse a price in cents for list in row "
            ++ toString ((List.length ([] : List (List String))) + 1)))) ∧
    (price_from_str "abc" = some decA → c5row.get? 8 = some "" →
      price_from_str "" = none →
      parse_abc_item_files ([] ++ c5row :: []) []
        = .error (.Custom ("Cannot parse a price in cents for cost in row "
            ++ toString ((List.length ([] : List (List String))) + 1)))) :=
  C5_price_parse_abort [] [] [] c5row [] "S" "D" "" "abc" "" decA rfl
    (by decide) (by decide) (by decide) (by decide)

theorem parsePostedRow_missing_base (i : Nat) (row : List String) (m : SkuMap)
    (sku stockStr dateStr : String) (q : ℚ)
    (h0 : row.get? 0 = some sku) (h19 : row.get? 19 = some stockStr)
    (hq : f64_from_str stockStr = some q) (h1 : row.get? 1 = some dateStr)
    (hmiss : mapLookup m sku = none) :
    parsePostedRow i row m
      = .error (.Custom ("Cannot find existing product for item with sku " ++ sku
          ++ " in row " ++ toString i ++ " of posted_data")) := by
  unfold parsePostedRow
  simp only [h0, h19, hq, h1, hmiss]

theorem parsePostedRow_ok (i : Nat) (row : List String) (m : SkuMap)
    (sku stockStr dateStr : String) (q : ℚ) (p : AbcProduct)
    (h0 : row.get? 0 = some sku) (h19 : row.get? 19 = some stockStr)
    (hq : f64_from_str stockStr = some q) (h1 : row.get? 1 = some dateStr)
    (hp : mapLookup m sku = some p) :
    parsePostedRow i row m
      = .ok (mapInsert m sku
          { p with stock := q, sku := strUpper p.sku,
                   last_sold := date_from_str dateStr }) := by
  unfold parsePostedRow
  simp only [h0, h19, hq, h1, hp]

theorem mapLookup_mapInsert_self (m : SkuMap) (k : String) (v : AbcProduct) :
    mapLookup (mapInsert m k v) k = some v := by
  induction m with
  | nil => simp [mapInsert, mapLookup]
  | cons e rest ih =>
    obtain ⟨k2, v2⟩ := e
    by_cases h : k2 = k
    · simp [mapInsert, mapLookup, h]
    · simp [mapInsert, mapLookup, h, ih]

/-- C6: confirmed.  When a posted row's sku is absent from the catalog built
from the item source, `parse_abc_item_files` stops with the missing-base
error naming that sku and the 1-indexed posted row, producing no catalog;
when the sku is present, processing that posted row succeeds, so the
cross-reference check never fails it. -/
theorem C6_posted_cross_reference (items pre rest : List (List String))
    (row : List String) (m0 m1 : SkuMap) (sku stockStr dateStr : String)
    (q : ℚ) (p : AbcProduct)
    (hitems : processItemRows items 0 [] = .ok m0)
    (hpre : processPostedRows pre 0 m0 = .ok m1)
    (h0 : row.get? 0 = some sku) (h19 : row.get? 19 = some stockStr)
    (hq : f64_from_str stockStr = some q) (h1 : row.get? 1 = some dateStr) :
    (mapLookup m1 sku = none →
      parse_abc_item_files items (pre ++ row :: rest)
        = .error (.Custom ("Cannot find existing product for item with sku " ++ sku
            ++ " in row " ++ toString (pre.length + 1) ++ " of posted_data"))) ∧
    (mapLookup m1 sku = some p →
      parsePostedRow (pre.length + 1) row m1
        = .ok (mapInsert m1 sku
            { p with stock := q, sku := strUpper p.sku,
                     last_sold := date_from_str dateStr })) := by
  constructor
  · intro hmiss
    unfold parse_abc_item_files
    rw [hitems]
    dsimp only
    rw [processPostedRows_append, hpre]
    dsimp only
    rw [Nat.zero_add, processPostedRows_cons,
      parsePostedRow_missing_base _ row m1 sku stockStr dateStr q h0 h19 hq h1 hmiss]
  · intro hp
    exact parsePostedRow_ok _ row m1 sku stockStr dateStr q p h0 h19 hq h1 hp

/-- A sample item row parsed into `c6prod` (sku `S`). -/
def c6item : List String :=
  ["S", "D", "", "", "", "", "1.00", "", "2.00"] ++ List.replicate 34 ""
    ++ ["0123456789012", "", "2"]

/-- The catalog record produced from `c6item`. -/
def c6prod : AbcProduct :=
  { sku := "S", desc := "D", upcs := [ean0], list := ⟨100, 2⟩, cost := ⟨200, 2⟩,
    stock := 0, weight := 2, last_sold := none }

/-- A sample posted row referencing the absent sku `T`. -/
def c6posted : List String :=
  ["T", "2024-01-10"] ++ List.replicate 17 "" ++ ["5"]

/-- Witness for C6: a catalog from one item row with sku `S`, and a posted
row naming the missing sku `T` in row 1. -/
theorem C6_witness :
    (mapLookup [("S", c6prod)] "T" = none →
      parse_abc_item_files [c6item] ([] ++ c6posted :: [])
        = .error (.Custom ("Cannot find existing product for item with sku " ++ "T"
            ++ " in row " ++ toString ((List.length ([] : List (List String))) + 1)
            ++ " of posted_data"))) ∧
    (mapLookup [("S", c6prod)] "T" = some prodA →
      parsePostedRow ((List.length ([] : List (List String))) + 1) c6posted [("S", c6prod)]
        = .ok (mapInsert [("S", c6prod)] "T"
            { prodA with stock := 5, sku := strUpper prodA.sku,
                         last_sold := date_from_str "2024-01-10" })) :=
  C6_posted_cross_reference [c6item] [] [] c6posted [("S", c6prod)] [("S", c6prod)]
    "T" "5" "2024-01-10" 5 prodA rfl rfl (by decide) (by decide) (by decide)
    (by decide)

/-- C7: confirmed.  A posted row that merges into an existing catalog record
upper-cases the record's sku, overwrites its stock with the parsed quantity,
and overwrites its last-sold date with the parse result of the row's date
string — present when it parses as YYYY-MM-DD, absent otherwise — and the
row is processed successfully either way. -/
theorem C7_posted_merge_fields (i : Nat) (row : List String) (m : SkuMap)
    (sku stockStr dateStr : String) (q : ℚ) (p : AbcProduct)
    (h0 : row.get? 0 = some sku) (h19 : row.get? 19 = some stockStr)
    (hq : f64_from_str stockStr = some q) (h1 : row.get? 1 = some dateStr)
    (hp : mapLookup m sku = some p) :
    parsePostedRow i row m
      = .ok (mapInsert m sku
          { p with stock := q, sku := strUpper p.sku,
                   last_sold := date_from_str dateStr }) :=
  parsePostedRow_ok i row m sku stockStr dateStr q p h0 h19 hq h1 hp

/-- A sample posted row with an unparseable last-sold date. -/
def c7posted : List String :=
  ["A", "never"] ++ List.replicate 17 "" ++ ["5"]

/-- Witness for C7: merging a posted row for sku `A` with stock 5 and an
unparseable date leaves the date absent without failing. -/
theorem C7_witness :
    parsePostedRow 1 c7posted [("A", prodA)]
      = .ok (mapInsert [("A", prodA)] "A"
          { prodA with stock := 5, sku := strUpper prodA.sku,
                       last_sold := date_from_str "never" }) :=
  C7_posted_merge_fields 1 c7posted [("A", prodA)] "A" "5" "never" 5 prodA
    (by decide) (by decide) (by decide) (by decide) (by decide)

/-- C10: confirmed.  A posted-row merge changes only the record's sku case,
stock and last-sold date: the record stored for the row's sku afterwards has
the same description, barcode list, list price, cost and weight as the
record produced from the item source. -/
theorem C10_posted_merge_frame (i : Nat) (row : List String) (m m2 : SkuMap)
    (sku stockStr dateStr : String) (q : ℚ) (p : AbcProduct)
    (h0 : row.get? 0 = some sku) (h19 : row.get? 19 = some stockStr)
    (hq : f64_from_str stockStr = some q) (h1 : row.get? 1 = some dateStr)
    (hp : mapLookup m sku = some p)
    (hrun : parsePostedRow i row m = .ok m2) :
    mapLookup m2 sku
        = some { p with stock := q, sku := strUpper p.sku,
                        last_sold := date_from_str dateStr } ∧
    ({ p with stock := q, sku := strUpper p.sku,
              last_sold := date_from_str dateStr } : AbcProduct).desc = p.desc ∧
    ({ p with stock := q, sku := strUpper p.sku,
              last_sold := date_from_str dateStr } : AbcProduct).upcs = p.upcs ∧
    ({ p with stock := q, sku := strUpper p.sku,
              last_sold := date_from_str dateStr } : AbcProduct).list = p.list ∧
    ({ p with stock := q, sku := strUpper p.sku,
              last_sold := date_from_str dateStr } : AbcProduct).cost = p.cost ∧
    ({ p with stock := q, sku := strUpper p.sku,
              last_sold := date_from_str dateStr } : AbcProduct).weight = p.weight := by
  have h := parsePostedRow_ok i row m sku stockStr dateStr q p h0 h19 hq h1 hp
  rw [hrun] at h
  injection h with h2
  rw [h2]
  exact ⟨mapLookup_mapInsert_self m sku _, rfl, rfl, rfl, rfl, rfl⟩

/-- Witness for C10 at the same concrete merge as C7. -/
theorem C10_witness :
    mapLookup (mapInsert [("A", prodA)] "A"
        { prodA with stock := 5, sku := strUpper prodA.sku,
                     last_sold := date_from_str "never" }) "A"
      = some { prodA with stock := 5, sku := strUpper prodA.sku,
                          last_sold := date_from_str "never" } ∧
    ({ prodA with stock := 5, sku := strUpper prodA.sku,
                  last_sold := date_from_str "never" } : AbcProduct).desc = prodA.desc ∧
    ({ prodA with stock := 5, sku := strUpper prodA.sku,
                  last_sold := date_from_str "never" } : AbcProduct).upcs = prodA.upcs ∧
    ({ prodA with stock := 5, sku := strUpper prodA.sku,
                  last_sold := date_from_str "never" } : AbcProduct).list = prodA.list ∧
    ({ prodA with stock := 5, sku := strUpper prodA.sku,
                  last_sold := date_from_str "never" } : AbcProduct).cost = prodA.cost ∧
    ({ prodA with stock := 5, sku := strUpper prodA.sku,
                  last_sold := date_from_str "never" } : AbcProduct).weight = prodA.weight :=
  C10_posted_merge_frame 1 c7posted [("A", prodA)]
    (mapInsert [("A", prodA)] "A"
      { prodA with stock := 5, sku := strUpper prodA.sku,
                   last_sold := date_from_str "never" })
    "A" "5" "never" 5 prodA
    (by decide) (by decide) (by decide) (by decide) (by decide) rfl

theorem attemptOp_ok (canDo : List UpcOp → UpcOp → Bool) (st : List UpcOp × Bool)
    (op : UpcOp) (tr : List UpcOp) (h : attemptOp canDo st op = (tr, true)) :
    st.2 = true ∧ tr = st.1 ++ [op] := by
  obtain ⟨tr0, ok0⟩ := st
  cases ok0
  · simp [attemptOp] at h
  · by_cases hc : canDo tr0 op
    · simp only [attemptOp, if_pos hc, Prod.mk.injEq] at h
      exact ⟨rfl, h.1.symm⟩
    · simp [attemptOp, if_neg hc] at h

theorem attemptOp_true (canDo : List UpcOp → UpcOp → Bool) (st : List UpcOp × Bool)
    (op : UpcOp) (h : (attemptOp canDo st op).2 = true) :
    st.2 = true ∧ (attemptOp canDo st op).1 = st.1 ++ [op] := by
  obtain ⟨tr0, ok0⟩ := st
  cases ok0
  · simp [attemptOp] at h
  · by_cases hc : canDo tr0 op
    · simp [attemptOp, hc]
    · simp [attemptOp, hc] at h

theorem fix_upc_fold_true (canDo : List UpcOp → UpcOp → Bool) (v : Ean13)
    (upcs : List Ean13) (st : List UpcOp × Bool)
    (h : (upcs.foldl (fun s upc => if upc ≠ v then attemptOp canDo s (.add upc) else s) st).2
      = true) :
    st.2 = true ∧
    (upcs.foldl (fun s upc => if upc ≠ v then attemptOp canDo s (.add upc) else s) st).1
      = st.1 ++ (upcs.filter (fun u => u ≠ v)).map UpcOp.add := by
  induction upcs generalizing st with
  | nil =>
    rw [List.foldl_nil] at h
    exact ⟨h, by simp⟩
  | cons u rest ih =>
    rw [List.foldl_cons] at h ⊢
    by_cases hu : u ≠ v
    · rw [if_pos hu] at h ⊢
      obtain ⟨h1, h2⟩ := ih (attemptOp canDo st (.add u)) h
      obtain ⟨h3, h4⟩ := attemptOp_true canDo st (.add u) h1
      refine ⟨h3, ?_⟩
      rw [h2, h4, List.filter_cons_of_pos (by simp [hu]), List.map_cons]
      simp
    · rw [if_neg hu] at h ⊢
      obtain ⟨h1, h2⟩ := ih st h
      refine ⟨h1, ?_⟩
      rw [h2]
      congr 1
      simp [List.filter_cons, hu]

/-- C8: confirmed.  Whenever `fix_upc` succeeds, the operations it issued
against the edit port are exactly: one clear of all barcodes, then one add
for each of the catalog product's original barcodes different from the
vendor's in their original order, then one add of the vendor's barcode as
the final operation. -/
theorem C8_fix_upc_sequence (canDo : List UpcOp → UpcOp → Bool)
    (abc_prod : AbcProduct) (ex_prod : ExportedProduct) (tr : List UpcOp)
    (h : fix_upc canDo abc_prod ex_prod = (tr, true)) :
    tr = UpcOp.clear ::
      ((abc_prod.upcs.filter (fun u => u ≠ ex_prod.upc)).map UpcOp.add
        ++ [UpcOp.add ex_prod.upc]) := by
  unfold fix_upc at h
  obtain ⟨hf, htr⟩ := attemptOp_ok canDo _ _ tr h
  obtain ⟨hinit, hfold⟩ := fix_upc_fold_true canDo ex_prod.upc abc_prod.upcs _ hf
  obtain ⟨hclear2, hclear⟩ := attemptOp_true canDo ([], true) .clear hinit
  rw [htr, hfold, hclear]
  simp

/-- A sample vendor product whose barcode is `ean1`. -/
def exV : ExportedProduct :=
  { sku := "V1", upc := ean1, desc := "vendor", weight := none, cost := decA,
    retail := none }

/-- Witness for C8 with an always-succeeding port: the trace is the clear,
the re-added original `ean0`, then the vendor's `ean1` last. -/
theorem C8_witness :
    (fix_upc (fun _ _ => true) prodA exV).1
      = UpcOp.clear ::
        ((prodA.upcs.filter (fun u => u ≠ exV.upc)).map UpcOp.add
          ++ [UpcOp.add exV.upc]) :=
  C8_fix_upc_sequence (fun _ _ => true) prodA exV (fix_upc (fun _ _ => true) prodA exV).1 rfl

/-- C9: confirmed.  When every read and write of the three alternate-sku
slots succeeds, `fix_alt_sku` writes the vendor's sku into exactly the first
of the fields 35, 36, 37 whose current text is empty and writes nothing into
the later slots; when none of the three is empty it performs no write and
still succeeds. -/
theorem C9_fix_alt_sku_first_empty (port : AltSkuPort) (ex_prod : ExportedProduct)
    (hr : ∀ i ∈ [35, 36, 37], port.readOk i = true)
    (hw : ∀ i ∈ [35, 36, 37], port.writeOk i = true) :
    fix_alt_sku port ex_prod
      = ((match [35, 36, 37].find? (fun i => port.fields i = "") with
          | some i => [(i, ex_prod.sku)]
          | none => []), true) := by
  have h35r := hr 35 (by simp)
  have h36r := hr 36 (by simp)
  have h37r := hr 37 (by simp)
  have h35w := hw 35 (by simp)
  have h36w := hw 36 (by simp)
  have h37w := hw 37 (by simp)
  by_cases h35 : port.fields 35 = ""
  · simp [fix_alt_sku, altSkuLoop, h35r, h35, h35w, List.find?]
  · by_cases h36 : port.fields 36 = ""
    · simp [fix_alt_sku, altSkuLoop, h35r, h36r, h35, h36, h36w, List.find?]
    · by_cases h37 : port.fields 37 = ""
      · simp [fix_alt_sku, altSkuLoop, h35r, h36r, h37r, h35, h36, h37, h37w, List.find?]
      · simp [fix_alt_sku, altSkuLoop, h35r, h36r, h37r, h35, h36, h37, List.find?]

/-- A sample port whose slot 35 is occupied and slots 36, 37 are empty. -/
def c9port : AltSkuPort :=
  { fields := fun i => if i = 35 then "X" else "",
    readOk := fun _ => true, writeOk := fun _ => true }

/-- Witness for C9: with slot 35 occupied and 36 empty, the single write goes
to slot 36. -/
theorem C9_witness :
    fix_alt_sku c9port exV
      = ((match [35, 36, 37].find? (fun i => c9port.fields i = "") with
          | some i => [(i, exV.sku)]
          | none => []), true) :=
  C9_fix_alt_sku_first_empty c9port exV (by decide) (by decide)

end ProductCrossref
